import Mathlib

set_option maxHeartbeats 1000000
set_option maxRecDepth 4000

/-!
Shallow embedding of the offline-first core of the mood-journal PWA:
the IndexedDB-backed entry store and its operations (`src/app.js`, `DB`
module), the connectivity-driven sync coordinator (`NetworkStatus`), the
UI save action, and the service worker's cache, fetch and update handlers
(`src/sw.js`).
-/

/-- An entry record as persisted in the `entries` object store
(`src/app.js`, object store with `keyPath: 'date'`). -/
structure Entry where
  date : String
  mood : Nat
  note : String
  timestamp : Nat
  synced : Bool
deriving DecidableEq, Repr

/-- The contents of the `entries` object store, in key-iteration order. -/
abbrev Store := List Entry

/-- `DB.put` (src/app.js lines 59-67): IndexedDB `put` with `keyPath 'date'`
replaces the record stored under the entry's key, or inserts the entry if
no record with that key exists. -/
def DBput (s : Store) (e : Entry) : Store :=
  if s.any (fun x => x.date == e.date) then
    s.map (fun x => if x.date == e.date then e else x)
  else s ++ [e]

/-- `DB.get` (src/app.js lines 69-77): the record stored under key `d`,
or `none` when the key is absent. -/
def DBget (s : Store) (d : String) : Option Entry :=
  s.find? (fun x => x.date == d)

/-- `DB.getAll` (src/app.js lines 79-87): every stored record. -/
def DBgetAll (s : Store) : List Entry := s

/-- JavaScript `Number(...)` applied to one component of a date string
split on `'-'`: a canonical digit string (as produced by an ISO
`YYYY-MM-DD` date) parses to that number; a non-numeric component gives
`NaN`, modelled as `none` (and `NaN === n` is false for every `n`). -/
def jsNat (s : String) : Option Nat := s.toNat?

/-- The filter predicate of `DB.getByMonth` (src/app.js lines 89-96):
`const [y, m] = e.date.split('-').map(Number); return y === year && m === month + 1;`.
A date string with fewer than two components leaves `m` undefined, so the
strict equality is false. -/
def monthPred (year month : Nat) (e : Entry) : Bool :=
  match (e.date.splitOn "-").map jsNat with
  | some y :: some m :: _ => y == year && m == month + 1
  | _ => false

/-- `DB.getByMonth` (src/app.js lines 89-96): a linear filter over
`getAll()`. -/
def DBgetByMonth (s : Store) (year month : Nat) : List Entry :=
  (DBgetAll s).filter (monthPred year month)

/-- Year component of a date string: the spec's `year(e.date)`. -/
def dateYearNum (d : String) : Option Nat := ((d.splitOn "-")[0]?).bind jsNat

/-- Month component of a date string (1 to 12 for an ISO date): the
spec's `month(e.date)`. -/
def dateMonthNum (d : String) : Option Nat := ((d.splitOn "-")[1]?).bind jsNat

/-- `entry.synced = true`, the only field mutation the sync loop performs
(src/app.js line 181). -/
def markSynced (e : Entry) : Entry := { e with synced := true }

/-- `NetworkStatus.getUnsyncedEntries` (src/app.js lines 171-174):
`all.filter(e => e.synced === false)` over `DB.getAll()`. -/
def getUnsyncedEntries (s : Store) : List Entry :=
  (DBgetAll s).filter (fun e => e.synced == false)

/-- `NetworkStatus.syncEntries` (src/app.js lines 176-184), with the remote
submission step abstracted as `submit`, the spec's Remote Submitter
collaborator (the shipped code simulates a submission that always
resolves).  A rejected submission propagates out of the `for` loop — the
body has no `try`/`catch` — so the pass ends at that entry.  Returns the
store after the pass, the entries whose submission was attempted in
order, and whether the pass ran to completion. -/
def syncEntries (submit : Entry → Bool) : List Entry → Store → Store × List Entry × Bool
  | [], s => (s, [], true)
  | e :: rest, s =>
    if submit e then
      let out := syncEntries submit rest (DBput s (markSynced e))
      (out.1, e :: out.2.1, out.2.2)
    else
      (s, [e], false)

/-- The sync part of `NetworkStatus.onOnline` (src/app.js lines 132-142):
query the unsynced entries, then push that snapshot through
`syncEntries`. -/
def syncPass (submit : Entry → Bool) (s : Store) : Store × List Entry × Bool :=
  syncEntries submit (getUnsyncedEntries s) s

/-- The store contents at the moment the `(k+1)`-st submission of a pass
over `l` starts (`k` 0-based), following the same loop: each success is
written back with `DB.put` before the next submission. -/
def storeBefore (submit : Entry → Bool) : List Entry → Store → Nat → Store
  | _, s, 0 => s
  | [], s, _ + 1 => s
  | e :: rest, s, k + 1 =>
    if submit e then storeBefore submit rest (DBput s (markSynced e)) k else s

/-- Fold of the marked write-backs, describing intermediate stores of a
succeeding pass. -/
def runPuts (s : Store) (l : List Entry) : Store :=
  l.foldl (fun st e => DBput st (markSynced e)) s

/-- The store invariant IndexedDB maintains for `keyPath 'date'`: one
record per date. -/
def datesNodup (s : Store) : Prop := (s.map Entry.date).Nodup

instance (s : Store) : Decidable (datesNodup s) :=
  inferInstanceAs (Decidable (s.map Entry.date).Nodup)

/-- State of the connectivity-driven coordinator: the entry store plus the
remaining queue of every sync pass currently in flight.  The
`NetworkStatus` object itself keeps no record of an in-flight pass (its
fields are `banner`, `hideTimeout`, `pendingCount`), so nothing in the
model gates pass creation on `passes`. -/
structure CoordState where
  store : Store
  passes : List (List Entry)
deriving DecidableEq, Repr

/-- Connectivity and scheduler events: the `online` and `offline` handlers
(src/app.js lines 119-120, 128-142), and `tick i`, one awaited step of the
`i`-th in-flight pass. -/
inductive NetEvent where
  | online : NetEvent
  | offline : NetEvent
  | tick : Nat → NetEvent
deriving DecidableEq, Repr

/-- One event of the coordinator.  `online` re-runs the body of
`onOnline`: it queries the unsynced entries and, whenever the result is
nonempty, starts a pass over that snapshot — there is no check for an
already-active pass.  `offline` only shows a banner (no data mutation).
`tick i` lets pass `i` submit its next entry (the shipped submit always
succeeds) and write it back. -/
def coordStep (ev : NetEvent) (c : CoordState) : CoordState :=
  match ev with
  | NetEvent.online =>
    let u := getUnsyncedEntries c.store
    if u.isEmpty then c else { c with passes := c.passes ++ [u] }
  | NetEvent.offline => c
  | NetEvent.tick i =>
    match c.passes[i]? with
    | none => c
    | some [] => { c with passes := c.passes.eraseIdx i }
    | some (e :: rest) =>
      { store := DBput c.store (markSynced e), passes := c.passes.set i rest }

/-- Run a sequence of coordinator events. -/
def runCoord (evs : List NetEvent) (c : CoordState) : CoordState :=
  evs.foldl (fun a ev => coordStep ev a) c

/-- The save-button handler (src/app.js lines 438-453): builds the record
`{date, mood, note: note.trim(), timestamp: Date.now(), synced: navigator.onLine}`
and writes it with `DB.put`.  `isOnline` is `navigator.onLine` at the
moment of the click; no remote submission is involved in a save. -/
def saveEntry (isOnline : Bool) (d : String) (mood : Nat) (note : String)
    (ts : Nat) (s : Store) : Store :=
  DBput s { date := d, mood := mood, note := note.trim, timestamp := ts, synced := isOnline }

/-- A JavaScript value that can sit in the `synced` field of a stored
object. -/
inductive JSVal where
  | vBool : Bool → JSVal
  | vNum : Int → JSVal
  | vStr : String → JSVal
  | vNull : JSVal
  | vUndefined : JSVal
deriving DecidableEq, Repr

/-- A stored object as `getAll()` may return it, with an arbitrary (or
absent) `synced` field; only the fields the unsynced query reads are
modelled. -/
structure RawEntry where
  date : String
  synced : Option JSVal
deriving DecidableEq, Repr

/-- Reading `e.synced` in JavaScript: a missing property reads as
`undefined`. -/
def syncedVal (e : RawEntry) : JSVal := e.synced.getD JSVal.vUndefined

/-- `v === false`: strict equality holds exactly for the boolean
`false`. -/
def strictEqFalse : JSVal → Bool
  | JSVal.vBool false => true
  | _ => false

/-- `getUnsyncedEntries` as it acts on raw stored objects:
`all.filter(e => e.synced === false)` (src/app.js lines 171-174). -/
def getUnsyncedRaw (all : List RawEntry) : List RawEntry :=
  all.filter (fun e => strictEqFalse (syncedVal e))

-- ── Concrete records used by witnesses and counterexamples ──

/-- A concrete unsynced entry. -/
def w1 : Entry := { date := "2024-05-01", mood := 4, note := "ok", timestamp := 100, synced := false }

/-- A second concrete unsynced entry. -/
def w2 : Entry := { date := "2024-05-15", mood := 3, note := "", timestamp := 200, synced := false }

/-- A third concrete unsynced entry. -/
def w3 : Entry := { date := "2024-06-02", mood := 5, note := "sun", timestamp := 300, synced := false }

/-- A Remote Submitter that resolves for every entry (the shipped
simulated submission). -/
def allOk (_e : Entry) : Bool := true

/-- A Remote Submitter that rejects exactly the second concrete entry. -/
def failSecond (e : Entry) : Bool := !(e.date == "2024-05-15")

/-- Initial coordinator state for the counterexample run: one unsynced
entry stored, no pass in flight. -/
def coordInit : CoordState := { store := [w1], passes := [] }

/-- Lifecycle phases of one service-worker generation
(Installing → Waiting → Active → Redundant). -/
inductive SWPhase where
  | installing : SWPhase
  | waiting : SWPhase
  | active : SWPhase
  | redundant : SWPhase
deriving DecidableEq, Repr

/-- One service-worker generation: its phase, whether `skipWaiting()` has
been requested for it, and the messages its `message` listener has
received. -/
structure SWLife where
  phase : SWPhase
  skipRequested : Bool
  messages : List String
deriving DecidableEq, Repr

/-- Events acting on a generation: completion of the `install` handler
(`ok` = the precache `addAll` resolved), delivery of a message to the
`message` listener, and the browser promoting an installed generation
whose activation was requested. -/
inductive SWEvent where
  | installDone : Bool → SWEvent
  | message : String → SWEvent
  | promote : SWEvent
deriving DecidableEq, Repr

/-- Step function for one generation.  `installDone true` embeds the
install listener of src/sw.js lines 16-22: `caches.open(...).then(cache =>
cache.addAll(ASSETS)).then(() => self.skipWaiting())` — a successful
install itself requests `skipWaiting`.  `message d` embeds the message
listener of lines 64-68: `if (event.data === 'skipWaiting')
self.skipWaiting()`.  `promote` is the browser rule that an installed
generation whose `skipWaiting()` was called skips waiting and activates
immediately. -/
def swStep (ev : SWEvent) (g : SWLife) : SWLife :=
  match ev with
  | SWEvent.installDone ok =>
    if g.phase == SWPhase.installing then
      if ok then { g with phase := SWPhase.waiting, skipRequested := true }
      else { g with phase := SWPhase.redundant }
    else g
  | SWEvent.message d =>
    { g with messages := g.messages ++ [d],
             skipRequested := g.skipRequested || (d == "skipWaiting") }
  | SWEvent.promote =>
    if g.phase == SWPhase.waiting && g.skipRequested then
      { g with phase := SWPhase.active }
    else g

/-- Run a sequence of lifecycle events on one generation. -/
def runSW (evs : List SWEvent) (g : SWLife) : SWLife :=
  evs.foldl (fun a ev => swStep ev a) g

/-- A freshly registered generation: installing, no activation requested,
no messages received. -/
def swInit : SWLife := { phase := SWPhase.installing, skipRequested := false, messages := [] }

/-- The `type` of a fetched response; `basic` is a same-origin response,
`opaqueResp` an un-inspectable cross-origin one. -/
inductive RespType where
  | basic : RespType
  | cors : RespType
  | opaqueResp : RespType
  | error : RespType
deriving DecidableEq, Repr

/-- A response as the fetch handler inspects it: HTTP status, type, and a
body identifying its content. -/
structure WebResponse where
  status : Nat
  rtype : RespType
  body : String
deriving DecidableEq, Repr

/-- The cache object named `CACHE_NAME`, keyed by request URL. -/
abbrev SWCache := List (String × WebResponse)

/-- `caches.match(request)`: the cached response for the URL, if any. -/
def cacheMatch (c : SWCache) (url : String) : Option WebResponse :=
  (c.find? (fun p => p.1 == url)).map Prod.snd

/-- `cache.put(request, clone)`: store the response under the URL,
replacing any previous occupant. -/
def cachePut (c : SWCache) (url : String) (r : WebResponse) : SWCache :=
  (url, r) :: c.filter (fun p => !(p.1 == url))

/-- Outcome of one intercepted fetch: the response the request resolves
with (`none` = the handler's promise rejected), the cache afterwards, and
whether a network fetch was issued. -/
structure FetchResult where
  response : Option WebResponse
  cache : SWCache
  networkUsed : Bool
deriving DecidableEq, Repr

/-- The `fetch` listener of src/sw.js (lines 36-61).  `isNavigate` is
`event.request.mode === 'navigate'`; `net` is the outcome of the one
`fetch(event.request)` the handler may issue (`none` = network failure).
Navigation requests are network-first with fallback to the cached
`'./index.html'`; all other requests return a cached match without
touching the network, and otherwise fetch, caching a clone only of a
status-200 `basic` response. -/
def handleFetch (isNavigate : Bool) (net : Option WebResponse) (cache : SWCache)
    (url : String) : FetchResult :=
  if isNavigate then
    match net with
    | some r => ⟨some r, cachePut cache url r, true⟩
    | none => ⟨cacheMatch cache "./index.html", cache, true⟩
  else
    match cacheMatch cache url with
    | some cr => ⟨some cr, cache, false⟩
    | none =>
      match net with
      | some r =>
        if r.status == 200 && r.rtype == RespType.basic then
          ⟨some r, cachePut cache url r, true⟩
        else ⟨some r, cache, true⟩
      | none => ⟨none, cache, true⟩

/-- The cached app-shell document. -/
def shellResp : WebResponse := { status := 200, rtype := RespType.basic, body := "app-shell" }

/-- A cache holding the precached app shell. -/
def shellCache : SWCache := [("./index.html", shellResp)]

/-- A same-origin success response. -/
def okResp : WebResponse := { status := 200, rtype := RespType.basic, body := "asset" }

-- ── Lemmas and claim theorems ──

/-- The first record with the put key in the replaced list is the new
entry, provided some record carried that key. -/
theorem find_map_replace (e : Entry) :
    ∀ s : Store, s.any (fun x => x.date == e.date) = true →
    (s.map (fun x => if x.date == e.date then e else x)).find?
      (fun x => x.date == e.date) = some e := by
  intro s
  induction s with
  | nil => intro h; simp at h
  | cons x xs ih =>
    intro h
    by_cases hx : x.date = e.date
    · simp [List.find?, hx]
    · have hxs : xs.any (fun x => x.date == e.date) = true := by
        simp only [List.any_cons, Bool.or_eq_true, beq_iff_eq] at h
        rcases h with h | h
        · exact absurd h hx
        · simpa using h
      rw [List.map_cons, if_neg (by simpa using hx),
        List.find?_cons_of_neg _ (by simpa using hx)]
      exact ih hxs

/-- `find?` skips a list in which no record carries the key. -/
theorem find_append_none (e : Entry) :
    ∀ s : Store, s.any (fun x => x.date == e.date) = false →
    (s ++ [e]).find? (fun x => x.date == e.date) = some e := by
  intro s
  induction s with
  | nil => simp [List.find?]
  | cons x xs ih =>
    intro h
    simp only [List.any_cons, Bool.or_eq_false_iff] at h
    have hx : (x.date == e.date) = false := h.1
    simp only [List.cons_append, List.find?, hx]
    exact ih h.2

/-- Shared helper: a `put` followed by a `get` of the same key returns the
record just written, whether or not the key was already present. -/
theorem DBget_DBput (s : Store) (e : Entry) : DBget (DBput s e) e.date = some e := by
  unfold DBput DBget
  by_cases h : s.any (fun x => x.date == e.date) = true
  · rw [if_pos h]
    exact find_map_replace e s h
  · rw [if_neg h]
    exact find_append_none e s (by simpa using h)

/-- C6: round trip — for every Entry `e` and every store, `upsert(e)`
followed by `get(e.date)` returns exactly `e` (all five fields), including
when a record with the same date already existed and is replaced. -/
theorem upsert_get_roundtrip (s : Store) (e : Entry) :
    DBget (DBput s e) e.date = some e :=
  DBget_DBput s e

/-- The getByMonth filter accepts a record exactly when its date parses to
the queried year and to the month number `month + 1` (the function's
`month` argument is the 0-based month index its callers obtain from
`Date.getMonth()`). -/
theorem monthPred_iff (year month : Nat) (e : Entry) :
    monthPred year month e = true ↔
      (dateYearNum e.date = some year ∧ dateMonthNum e.date = some (month + 1)) := by
  unfold monthPred dateYearNum dateMonthNum
  cases h : e.date.splitOn "-" with
  | nil => simp
  | cons a t =>
    cases t with
    | nil =>
      cases ha : jsNat a <;> simp [ha]
    | cons b t2 =>
      cases ha : jsNat a <;> cases hb : jsNat b <;>
        simp [ha, hb, Bool.and_eq_true, beq_iff_eq]

/-- C7: month filter correctness — `getByMonth(y, m)` returns exactly the
stored entries whose date falls in year `y` and in the calendar month the
caller designates; `m` is the 0-based month index used by every caller
(`Date.getMonth()`), so the matching month number in the ISO date is
`m + 1`.  Every matching entry is included and no non-matching entry is. -/
theorem getByMonth_exact (s : Store) (year month : Nat) (e : Entry) :
    e ∈ DBgetByMonth s year month ↔
      (e ∈ DBgetAll s ∧ dateYearNum e.date = some year ∧
        dateMonthNum e.date = some (month + 1)) := by
  unfold DBgetByMonth
  rw [List.mem_filter, monthPred_iff]

/-- Replacement by key leaves untouched every record with a different
key. -/
theorem map_untouched (d : String) (e' : Entry) :
    ∀ t : Store, (∀ x ∈ t, x.date ≠ d) →
    (t.map fun x => if x.date == d then e' else x) = t := by
  intro t
  induction t with
  | nil => intro _; rfl
  | cons x xs ih =>
    intro h
    have hx : ¬((x.date == d) = true) := by
      simpa using h x (List.mem_cons_self x xs)
    rw [List.map_cons, if_neg hx, ih (fun y hy => h y (List.mem_cons_of_mem _ hy))]

/-- Putting a record whose key occurs exactly once in the store replaces
that occupant in place. -/
theorem DBput_replace (t u : Store) (e e' : Entry) (hd : e'.date = e.date)
    (ht : ∀ x ∈ t, x.date ≠ e.date) (hu : ∀ x ∈ u, x.date ≠ e.date) :
    DBput (t ++ e :: u) e' = t ++ e' :: u := by
  unfold DBput
  simp only [hd]
  have hany : ((t ++ e :: u).any fun x => x.date == e.date) = true := by
    simp [List.any_append, List.any_cons]
  rw [if_pos hany, List.map_append, List.map_cons,
    map_untouched e.date e' t ht, map_untouched e.date e' u hu,
    if_pos (by simp)]

/-- Unfolding one write-back of the fold. -/
theorem runPuts_cons (s : Store) (e : Entry) (l : List Entry) :
    runPuts s (e :: l) = runPuts (DBput s (markSynced e)) l := rfl

/-- Marking keeps the key. -/
theorem markSynced_date (e : Entry) : (markSynced e).date = e.date := rfl

/-- Folding the marked write-backs of a key-distinct section of the store
marks exactly that section in place. -/
theorem runPuts_section :
    ∀ (l t u : Store), datesNodup (t ++ (l ++ u)) →
    runPuts (t ++ (l ++ u)) l = t ++ (l.map markSynced ++ u) := by
  intro l
  induction l with
  | nil => intro t u _; rfl
  | cons e rest ih =>
    intro t u hnd
    have hnd' : (t.map Entry.date ++
        e.date :: (rest.map Entry.date ++ u.map Entry.date)).Nodup := by
      have h0 := hnd
      unfold datesNodup at h0
      simpa using h0
    have hdisj := List.disjoint_of_nodup_append hnd'
    have ht : ∀ x ∈ t, x.date ≠ e.date := by
      intro x hx hxe
      exact hdisj (hxe ▸ List.mem_map_of_mem Entry.date hx)
        (List.mem_cons_self _ _)
    have hne : e.date ∉ rest.map Entry.date ++ u.map Entry.date :=
      (List.nodup_cons.mp (List.Nodup.of_append_right hnd')).1
    have hrest : ∀ x ∈ rest, x.date ≠ e.date := by
      intro x hx hxe
      exact hne (List.mem_append_left _ (hxe ▸ List.mem_map_of_mem Entry.date hx))
    have hu : ∀ x ∈ u, x.date ≠ e.date := by
      intro x hx hxe
      exact hne (List.mem_append_right _ (hxe ▸ List.mem_map_of_mem Entry.date hx))
    have hput : DBput (t ++ ((e :: rest) ++ u)) (markSynced e) =
        t ++ markSynced e :: (rest ++ u) := by
      have hru : ∀ x ∈ rest ++ u, x.date ≠ e.date := by
        intro x hx
        rcases List.mem_append.mp hx with h | h
        · exact hrest x h
        · exact hu x h
      have := DBput_replace t (rest ++ u) e (markSynced e) rfl ht hru
      simpa using this
    rw [runPuts_cons, hput]
    have hnd2 : datesNodup ((t ++ [markSynced e]) ++ (rest ++ u)) := by
      unfold datesNodup
      simpa [markSynced] using hnd'
    have hstep := ih (t ++ [markSynced e]) u hnd2
    simpa using hstep

/-- A pass whose every submission resolves writes back each entry marked,
attempts all of them, and completes. -/
theorem syncEntries_success (submit : Entry → Bool) :
    ∀ (l : List Entry) (s : Store), (∀ e ∈ l, submit e = true) →
    syncEntries submit l s = (runPuts s l, l, true) := by
  intro l
  induction l with
  | nil => intro s _; rfl
  | cons e rest ih =>
    intro s h
    have he : submit e = true := h e (List.mem_cons_self e rest)
    simp only [syncEntries, he, if_true]
    rw [ih _ (fun x hx => h x (List.mem_cons_of_mem _ hx))]
    rfl

/-- Before the `(k+1)`-st submission of an all-resolving pass, exactly the
first `k` write-backs have happened. -/
theorem storeBefore_success (submit : Entry → Bool) :
    ∀ (l : List Entry) (s : Store) (k : Nat), (∀ e ∈ l, submit e = true) →
    storeBefore submit l s k = runPuts s (l.take k) := by
  intro l
  induction l with
  | nil => intro s k _; cases k <;> rfl
  | cons e rest ih =>
    intro s k h
    cases k with
    | zero => rfl
    | succ k' =>
      have he : submit e = true := h e (List.mem_cons_self e rest)
      simp only [storeBefore, he, if_true, List.take_succ_cons]
      exact ih _ k' (fun x hx => h x (List.mem_cons_of_mem _ hx))

/-- A pass over `pre ++ rest` whose `pre` submissions all resolve first
runs the `pre` write-backs, then continues over `rest`. -/
theorem syncEntries_append (submit : Entry → Bool) :
    ∀ (pre rest : List Entry) (s : Store), (∀ p ∈ pre, submit p = true) →
    syncEntries submit (pre ++ rest) s =
      ((syncEntries submit rest (runPuts s pre)).1,
        pre ++ (syncEntries submit rest (runPuts s pre)).2.1,
        (syncEntries submit rest (runPuts s pre)).2.2) := by
  intro pre
  induction pre with
  | nil => intro rest s _; rfl
  | cons p ps ih =>
    intro rest s h
    have hp : submit p = true := h p (List.mem_cons_self p ps)
    simp only [List.cons_append, syncEntries, hp, if_true, List.append_eq]
    rw [ih rest _ (fun x hx => h x (List.mem_cons_of_mem _ hx))]
    rfl

/-- When every stored entry is unsynced, the unsynced query returns the
whole store. -/
theorem getUnsynced_of_all_false (s : Store) (h : ∀ e ∈ s, e.synced = false) :
    getUnsyncedEntries s = s := by
  unfold getUnsyncedEntries DBgetAll
  apply List.filter_eq_self.mpr
  intro e he
  simp [h e he]

/-- Entries already marked synced drop out of the unsynced query. -/
theorem getUnsynced_after_marked (pre r : Store) (h : ∀ e ∈ r, e.synced = false) :
    getUnsyncedEntries (pre.map markSynced ++ r) = r := by
  unfold getUnsyncedEntries DBgetAll
  rw [List.filter_append]
  have h1 : (pre.map markSynced).filter (fun e => e.synced == false) = [] := by
    rw [List.filter_eq_nil_iff]
    intro e he
    rcases List.mem_map.mp he with ⟨x, _, rfl⟩
    simp [markSynced]
  rw [h1, List.nil_append]
  apply List.filter_eq_self.mpr
  intro e he
  simp [h e he]

/-- Marking preserves the keys, hence the key invariant. -/
theorem datesNodup_marked (pre r : Store) (h : datesNodup (pre ++ r)) :
    datesNodup (pre.map markSynced ++ r) := by
  unfold datesNodup at h ⊢
  simpa [List.map_map, Function.comp, markSynced] using h

/-- Intermediate stores of a succeeding pass over the whole store: after
`k` write-backs, exactly the first `k` entries are replaced by their
marked copies. -/
theorem runPuts_take (s : Store) (hnd : datesNodup s) (k : Nat) :
    runPuts s (s.take k) = (s.take k).map markSynced ++ s.drop k := by
  have hdecomp : s.take k ++ s.drop k = s := List.take_append_drop k s
  have h := runPuts_section (s.take k) [] (s.drop k)
    (by rw [List.nil_append, hdecomp]; exact hnd)
  rw [List.nil_append, hdecomp] at h
  rw [h, List.nil_append]

/-- C1: sync convergence — with every stored entry unsynced and a Remote
Submitter that resolves every submission, one completed pass leaves
`getAll()` returning all entries with `synced = true` and `mood`, `note`,
`date` (and `timestamp`) unchanged, and before each next submission the
successes so far are already persisted: the store at the start of the
`(k+1)`-st submission holds exactly the first `k` entries marked. -/
theorem sync_convergence (s : Store) (submit : Entry → Bool)
    (hnd : datesNodup s) (hall : ∀ e ∈ s, e.synced = false)
    (hsub : ∀ e, submit e = true) :
    DBgetAll (syncPass submit s).1 = s.map markSynced ∧
    (syncPass submit s).2.2 = true ∧
    ∀ k, storeBefore submit (getUnsyncedEntries s) s k =
      (s.take k).map markSynced ++ s.drop k := by
  have hu : getUnsyncedEntries s = s := getUnsynced_of_all_false s hall
  refine ⟨?_, ?_, ?_⟩
  · unfold syncPass DBgetAll
    rw [hu, syncEntries_success submit s s (fun e _ => hsub e)]
    have h := runPuts_take s hnd s.length
    simpa using h
  · unfold syncPass
    rw [hu, syncEntries_success submit s s (fun e _ => hsub e)]
  · intro k
    rw [hu, storeBefore_success submit s s k (fun e _ => hsub e)]
    exact runPuts_take s hnd k

/-- C1 witness: the pass over two concrete unsynced entries with an
all-resolving submitter converges both. -/
theorem sync_convergence_w :
    DBgetAll (syncPass allOk [w1, w2]).1 = [w1, w2].map markSynced :=
  (sync_convergence [w1, w2] allOk (by decide) (by decide) (fun _ => rfl)).1

/-- C2 counterexample: over three unsynced entries with the Remote
Submitter rejecting the second submission, the pass attempts only entries
1 and 2 and stops — entry 3 is not attempted in the same pass, refuting
the claim that a failure does not abort the remaining queue items (the
rejection propagates out of the `for` loop, which has no `try`/`catch`). -/
theorem sync_abort_cex :
    syncPass failSecond [w1, w2, w3] = ([markSynced w1, w2, w3], [w1, w2], false) ∧
      w3 ∉ (syncPass failSecond [w1, w2, w3]).2.1 := by
  constructor <;> decide

/-- C2 (amended): if the Remote Submitter rejects the `k`-th submission,
entries `1..k-1` are already persisted as `synced = true`, entry `k` and
every later one keep `synced = false`, and the pass aborts there: entries
after `k` are not attempted in that pass (the rejection propagates out of
the loop).  A subsequent pass whose submissions all resolve converges
every remaining unsynced entry to `synced = true`. -/
theorem sync_failure_resume (pre post : Store) (e : Entry) (submit submit2 : Entry → Bool)
    (hnd : datesNodup (pre ++ e :: post))
    (hall : ∀ x ∈ pre ++ e :: post, x.synced = false)
    (hpre : ∀ p ∈ pre, submit p = true) (he : submit e = false)
    (hsub2 : ∀ x, submit2 x = true) :
    syncPass submit (pre ++ e :: post) =
      (pre.map markSynced ++ e :: post, pre ++ [e], false) ∧
    (syncPass submit2 (pre.map markSynced ++ e :: post)).1 =
      (pre ++ e :: post).map markSynced := by
  have hu : getUnsyncedEntries (pre ++ e :: post) = pre ++ e :: post :=
    getUnsynced_of_all_false _ hall
  have hrp : runPuts (pre ++ e :: post) pre = pre.map markSynced ++ e :: post := by
    have h := runPuts_section pre [] (e :: post) (by simpa using hnd)
    simpa using h
  constructor
  · unfold syncPass
    rw [hu, syncEntries_append submit pre (e :: post) _ hpre, hrp]
    simp [syncEntries, he]
  · unfold syncPass
    have hu2 : getUnsyncedEntries (pre.map markSynced ++ e :: post) = e :: post :=
      getUnsynced_after_marked pre (e :: post)
        (fun x hx => hall x (List.mem_append_right _ hx))
    rw [hu2, syncEntries_success submit2 (e :: post) _ (fun x _ => hsub2 x)]
    have hnd2 : datesNodup (pre.map markSynced ++ ((e :: post) ++ [])) := by
      simpa using datesNodup_marked pre (e :: post) hnd
    have h := runPuts_section (e :: post) (pre.map markSynced) [] hnd2
    simp only [List.append_nil] at h
    simp [h]

/-- C2 witness: submitter rejecting the second of three concrete entries
leaves entry 1 synced, entries 2 and 3 untouched; the follow-up
all-resolving pass converges all three. -/
theorem sync_failure_resume_w :
    syncPass failSecond [w1, w2, w3] =
      ([w1].map markSynced ++ w2 :: [w3], [w1] ++ [w2], false) ∧
    (syncPass allOk ([w1].map markSynced ++ w2 :: [w3])).1 =
      ([w1] ++ w2 :: [w3]).map markSynced :=
  sync_failure_resume [w1] [w3] w2 failSecond allOk (by decide) (by decide)
    (by decide) (by decide) (fun _ => rfl)

/-- C3 counterexample: connectivity regained twice while the first pass
has made no progress — the second `online` event starts a second
concurrent pass over the same unsynced entry, refuting the claim that a
duplicate trigger never starts a second concurrent pass (it is neither
ignored nor deferred). -/
theorem coord_second_pass_cex :
    (runCoord [NetEvent.online, NetEvent.online] coordInit).passes = [[w1], [w1]] := by
  decide

/-- C3 (amended): the `online` handler consults only the unsynced query,
never the in-flight state — whenever a pass is already active and the
unsynced set is nonempty, a further connectivity-regained event makes at
least two passes concurrently active, the new one queued over the current
unsynced snapshot. -/
theorem coord_online_unguarded (c : CoordState) (q : List Entry)
    (hq : q ∈ c.passes) (hu : getUnsyncedEntries c.store ≠ []) :
    2 ≤ (coordStep NetEvent.online c).passes.length ∧
    getUnsyncedEntries c.store ∈ (coordStep NetEvent.online c).passes := by
  have hne : (getUnsyncedEntries c.store).isEmpty = false := by
    cases h : getUnsyncedEntries c.store with
    | nil => exact absurd h hu
    | cons a l => rfl
  constructor
  · show 2 ≤ (coordStep NetEvent.online c).passes.length
    have h1 : 1 ≤ c.passes.length := List.length_pos.mpr (List.ne_nil_of_mem hq)
    simp only [coordStep, hne, Bool.false_eq_true, if_false, List.length_append,
      List.length_singleton]
    omega
  · simp only [coordStep, hne, Bool.false_eq_true, if_false]
    exact List.mem_append_right _ (List.mem_singleton_self _)

/-- C3 witness: a state with one active pass and one unsynced entry; an
online event yields two concurrent passes. -/
theorem coord_online_unguarded_w :
    2 ≤ (coordStep NetEvent.online { store := [w1], passes := [[w2]] }).passes.length :=
  (coord_online_unguarded { store := [w1], passes := [[w2]] } [w2]
    (by decide) (by decide)).1

/-- C4 counterexample: a generation that finishes installing is promoted
to Active although its message log is empty — no `'skipWaiting'` (indeed
no message at all) was ever received, refuting the claim that the waiting
generation never becomes Active until the foreground sends the control
message.  The install handler itself calls `self.skipWaiting()`
(src/sw.js line 20). -/
theorem sw_active_without_message_cex :
    runSW [SWEvent.installDone true, SWEvent.promote] swInit =
      { phase := SWPhase.active, skipRequested := true, messages := [] } := by
  decide

/-- C4 (amended): a successfully installed generation has already
requested `skipWaiting` itself, so it becomes Active immediately without
any foreground message; independently, the message listener requests
`skipWaiting` exactly when the literal message `'skipWaiting'` arrives. -/
theorem sw_skip_on_install (g : SWLife) (h : g.phase = SWPhase.installing) :
    (swStep SWEvent.promote (swStep (SWEvent.installDone true) g)).phase = SWPhase.active ∧
    (swStep (SWEvent.installDone true) g).skipRequested = true ∧
    ∀ (g2 : SWLife) (d : String),
      (swStep (SWEvent.message d) g2).skipRequested =
        (g2.skipRequested || (d == "skipWaiting")) := by
  refine ⟨?_, ?_, ?_⟩
  · simp [swStep, h]
  · simp [swStep, h]
  · intro g2 d
    rfl

/-- C4 witness: the fresh generation, successfully installed, is Active
with no message. -/
theorem sw_skip_on_install_w :
    (swStep SWEvent.promote (swStep (SWEvent.installDone true) swInit)).phase = SWPhase.active :=
  (sw_skip_on_install swInit rfl).1

/-- C5 counterexample: a save performed while online writes the entry with
`synced = true` although the save action involves no remote submission at
all (`saveEntry` takes no submitter) — `synced = true` does not witness a
confirmed remote copy, and a fresh UI save is not always
`synced = false`. -/
theorem save_online_synced_cex :
    (DBget (saveEntry true "2024-05-01" 4 "ok" 100 []) "2024-05-01").map Entry.synced =
      some true := by
  have h : DBget (saveEntry true "2024-05-01" 4 "ok" 100 []) "2024-05-01" =
      some { date := "2024-05-01", mood := 4, note := "ok".trim,
             timestamp := 100, synced := true } :=
    DBget_DBput [] _
  rw [h]
  rfl

/-- C5 (amended): the save action records the connectivity status at save
time, not a confirmed remote copy — the stored entry's `synced` equals
`navigator.onLine` at the click: `false` for an offline save, `true` for
an online save even though no remote submission has occurred; the sync
pass is the only component that later flips `false` to `true`. -/
theorem save_sets_synced_from_online (isOnline : Bool) (d note : String)
    (mood ts : Nat) (s : Store) :
    DBget (saveEntry isOnline d mood note ts s) d =
      some { date := d, mood := mood, note := note.trim,
             timestamp := ts, synced := isOnline } :=
  DBget_DBput s { date := d, mood := mood, note := note.trim,
                  timestamp := ts, synced := isOnline }

/-- The strict-equality test accepts exactly the boolean `false`. -/
theorem strictEqFalse_iff (v : JSVal) :
    strictEqFalse v = true ↔ v = JSVal.vBool false := by
  cases v with
  | vBool b => cases b <;> simp [strictEqFalse]
  | vNum n => simp [strictEqFalse]
  | vStr s => simp [strictEqFalse]
  | vNull => simp [strictEqFalse]
  | vUndefined => simp [strictEqFalse]

/-- C10: the unsynced query selects exactly the stored objects whose
`synced` field is the boolean `false` under strict equality — an object
whose `synced` is missing (hence `undefined`), `undefined`, `null`, a
number, a string, or `true` is never selected, and since `onOnline` feeds
the Remote Submitter exactly this query's result, such objects are never
submitted. -/
theorem unsynced_strict_false (all : List RawEntry) (e : RawEntry) :
    e ∈ getUnsyncedRaw all ↔ (e ∈ all ∧ syncedVal e = JSVal.vBool false) := by
  unfold getUnsyncedRaw
  rw [List.mem_filter, strictEqFalse_iff]

/-- C8: a navigation request whose network fetch fails resolves with the
cached `'./index.html'` app-shell document instead of propagating the
failure, for any cache holding that document. -/
theorem offline_nav_fallback (cache : SWCache) (url : String) (shell : WebResponse)
    (h : cacheMatch cache "./index.html" = some shell) :
    handleFetch true none cache url = ⟨some shell, cache, true⟩ := by
  simp [handleFetch, h]

/-- C8 witness: with the precached shell, an offline navigation to an
uncached path resolves with the shell. -/
theorem offline_nav_fallback_w :
    handleFetch true none shellCache "./stats" = ⟨some shellResp, shellCache, true⟩ :=
  offline_nav_fallback shellCache "./stats" shellResp (by decide)

/-- C9: non-navigation requests are cache-first — a cached match is
returned with no network fetch; on a cache miss the network response is
returned, and a clone is stored if and only if the response has status 200
and type `basic` (same-origin): non-200 or opaque responses leave the
cache unchanged. -/
theorem cache_first_policy (cache : SWCache) (net : Option WebResponse) (url : String) :
    (∀ cr, cacheMatch cache url = some cr →
      handleFetch false net cache url = ⟨some cr, cache, false⟩) ∧
    (cacheMatch cache url = none → ∀ r, net = some r →
      (handleFetch false net cache url).response = some r ∧
      (handleFetch false net cache url).networkUsed = true ∧
      (r.status = 200 ∧ r.rtype = RespType.basic →
        (handleFetch false net cache url).cache = cachePut cache url r) ∧
      (¬(r.status = 200 ∧ r.rtype = RespType.basic) →
        (handleFetch false net cache url).cache = cache)) := by
  constructor
  · intro cr hcr
    simp [handleFetch, hcr]
  · intro hmiss r hr
    subst hr
    by_cases hok : r.status = 200 ∧ r.rtype = RespType.basic
    · have hb : (r.status == 200 && (r.rtype == RespType.basic)) = true := by
        simp [hok.1, hok.2]
      refine ⟨?_, ?_, ?_, ?_⟩ <;> simp [handleFetch, hmiss, hb, hok]
    · have hb : (r.status == 200 && (r.rtype == RespType.basic)) = false := by
        rcases Decidable.not_and_iff_or_not.mp hok with h | h <;> simp [h]
      refine ⟨?_, ?_, ?_, ?_⟩ <;> simp [handleFetch, hmiss, hb, hok]

/-- C9 witness: on a cache miss, a 200 same-origin response is returned
and cached. -/
theorem cache_first_policy_w :
    (handleFetch false (some okResp) [] "./app.js").response = some okResp ∧
    (handleFetch false (some okResp) [] "./app.js").cache = cachePut [] "./app.js" okResp :=
  ⟨((cache_first_policy [] (some okResp) "./app.js").2 rfl okResp rfl).1,
    ((cache_first_policy [] (some okResp) "./app.js").2 rfl okResp rfl).2.2.1
      ⟨rfl, rfl⟩⟩
